import Mathlib

/-!
Verification of the powerbi-models core (src/models.ts): the JSON data
model, the validator wrapper and error normalizer, the filter classes
(BasicFilter, AdvancedFilter) with their construction guards and
serialization, the runtime filter-type discriminator, and the
target-shape predicates.

JavaScript values crossing these functions are modelled by `JSONValue`.
Numbers are modelled by `Int`: no function here computes on a number,
they flow through construction and serialization untouched.
-/

/-- A JavaScript/JSON value as the models module manipulates it. -/
inductive JSONValue where
  | null
  | bool (b : Bool)
  | num (n : Int)
  | str (s : String)
  | arr (elems : List JSONValue)
  | obj (fields : List (String × JSONValue))

/-- Property lookup on a JavaScript object literal: first binding wins. -/
def lookupField : List (String × JSONValue) → String → Option JSONValue
  | [], _ => none
  | (k, v) :: rest, name => if k = name then some v else lookupField rest name

/-- Property access `x.name`: `none` models the JavaScript `undefined`. -/
def getField : JSONValue → String → Option JSONValue
  | .obj fields, name => lookupField fields name
  | _, _ => none

/-- Models `typeof v === "string"` on a property access result. -/
def isStringValue : Option JSONValue → Bool
  | some (.str _) => true
  | _ => false

/-- Models `Array.isArray(v)` on a property access result. -/
def isArrayValue : Option JSONValue → Bool
  | some (.arr _) => true
  | _ => false

/-- Models `Array.isArray(v)` on a value itself. -/
def isArrayJSON : JSONValue → Bool
  | .arr _ => true
  | _ => false

/-- A value that is an object literal. -/
def isObjectValue : JSONValue → Bool
  | .obj _ => true
  | _ => false

/-- A primitive scalar: string, number or boolean. -/
def isPrimitive : JSONValue → Bool
  | .str _ => true
  | .num _ => true
  | .bool _ => true
  | _ => false

/-- The raw structural-failure record jsen hands to `normalizeError`
(interface IValidationError).  Every field is optional: `delete` removes
a field, and `none` models an absent field / `undefined`. -/
structure ValidationError where
  path : Option String
  keyword : Option String
  message : Option String
deriving DecidableEq

/-- JavaScript truthiness test `!error.message` on a string-or-absent field:
`undefined` and the empty string are falsy. -/
def falsyMessage : Option String → Bool
  | none => true
  | some s => s = ""

/-- A template-literal splice of a possibly absent string field. -/
def templateString : Option String → String
  | some s => s
  | none => "undefined"

/-- The message `normalizeError` synthesizes from path and keyword. -/
def fallbackMessage (e : ValidationError) : String :=
  templateString e.path ++ " is invalid. Not meeting " ++ templateString e.keyword ++ " constraint"

/-- normalizeError from src/models.ts: when the message is falsy, replace it
by the synthesized fallback; then delete the path and keyword fields.  This
is the value-level effect of the function on its (mutated) record. -/
def normalizeError (e : ValidationError) : ValidationError :=
  let e1 := if falsyMessage e.message then { e with message := some (fallbackMessage e) } else e
  { e1 with path := none, keyword := none }

/-- A heap mapping object references to validation-error records, used to
state what normalizeError does to object identity (it mutates its argument
in place and returns the very same reference). -/
abbrev ErrHeap := Nat → ValidationError

/-- Heap update at one reference. -/
def updateHeap (h : ErrHeap) (r : Nat) (v : ValidationError) : ErrHeap :=
  fun s => if s = r then v else h s

/-- State-passing embedding of normalizeError as JavaScript runs it: the
record behind the reference is mutated (per `normalizeError`) and the same
reference is returned (`return error`). -/
def normalizeErrorAt (h : ErrHeap) (r : Nat) : ErrHeap × Nat :=
  (updateHeap h r (normalizeError (h r)), r)

/-- enum FilterType from src/models.ts. -/
inductive FilterType where
  | Advanced
  | Basic
  | Unknown
deriving DecidableEq

/-- getFilterType from src/models.ts: duck-typed discrimination of a
deserialized filter object. -/
def getFilterType (filter : JSONValue) : FilterType :=
  if isStringValue (getField filter "operator") && isArrayValue (getField filter "values") then
    FilterType.Basic
  else if isStringValue (getField filter "logicalOperator") && isArrayValue (getField filter "conditions") then
    FilterType.Advanced
  else
    FilterType.Unknown

/-- isMeasure from src/models.ts: `arg.table !== undefined && arg.measure !== undefined`. -/
def isMeasure (arg : JSONValue) : Bool :=
  (getField arg "table").isSome && (getField arg "measure").isSome

/-- isColumn from src/models.ts. -/
def isColumn (arg : JSONValue) : Bool :=
  (getField arg "table").isSome && (getField arg "column").isSome

/-- isHierarchy from src/models.ts. -/
def isHierarchy (arg : JSONValue) : Bool :=
  (getField arg "table").isSome && (getField arg "hierarchy").isSome
    && (getField arg "hierarchyLevel").isSome

/-- The static schemaUrl of class BasicFilter. -/
def basicSchemaUrl : String := "http://powerbi.com/product/schema#basic"

/-- The static schemaUrl of class AdvancedFilter. -/
def advancedSchemaUrl : String := "http://powerbi.com/product/schema#advanced"

/-- The state of a constructed BasicFilter instance. -/
structure BasicFilter where
  target : JSONValue
  operator : String
  values : List JSONValue
  schemaUrl : String

/-- The BasicFilter constructor from src/models.ts.  `values` is the raw
variadic tail `...values`; a thrown construction error is `.error`.  The
guard `values.length === 0` runs on the raw tail, then the first trailing
argument is tested with `Array.isArray` to accept the payload either as one
array or as individual arguments. -/
def BasicFilter.make (target : JSONValue) (operator : String)
    (values : List JSONValue) : Except String BasicFilter :=
  if values.length = 0 then
    Except.error "values must be a non-empty array"
  else
    match values with
    | (JSONValue.arr elems) :: _ => Except.ok ⟨target, operator, elems, basicSchemaUrl⟩
    | _ => Except.ok ⟨target, operator, values, basicSchemaUrl⟩

/-- BasicFilter.toJSON: the base class emits dollar-schema and target, the
subclass adds operator and values. -/
def BasicFilter.toJSON (f : BasicFilter) : JSONValue :=
  JSONValue.obj [("$schema", JSONValue.str f.schemaUrl), ("target", f.target),
    ("operator", JSONValue.str f.operator), ("values", JSONValue.arr f.values)]

/-- The state of a constructed AdvancedFilter instance. -/
structure AdvancedFilter where
  target : JSONValue
  logicalOperator : String
  conditions : List JSONValue
  schemaUrl : String

/-- The AdvancedFilter constructor from src/models.ts.  `logicalOperator` is
taken as an arbitrary JavaScript value since the guard re-checks
`typeof logicalOperator !== "string" || logicalOperator.length === 0` at
runtime; the emptiness and length-over-two guards run on the raw variadic
tail `conditions`, before the array-versus-variadic detection on its first
element. -/
def AdvancedFilter.make (target : JSONValue) (logicalOperator : JSONValue)
    (conditions : List JSONValue) : Except String AdvancedFilter :=
  match logicalOperator with
  | JSONValue.str s =>
    if s.length = 0 then
      Except.error "logicalOperator must be a valid operator"
    else if conditions.length = 0 then
      Except.error "conditions must be a non-empty array"
    else if conditions.length > 2 then
      Except.error "AdvancedFilters may not have more than two conditions"
    else
      match conditions with
      | (JSONValue.arr elems) :: _ => Except.ok ⟨target, s, elems, advancedSchemaUrl⟩
      | _ => Except.ok ⟨target, s, conditions, advancedSchemaUrl⟩
  | _ => Except.error "logicalOperator must be a valid operator"

/-- AdvancedFilter.toJSON. -/
def AdvancedFilter.toJSON (f : AdvancedFilter) : JSONValue :=
  JSONValue.obj [("$schema", JSONValue.str f.schemaUrl), ("target", f.target),
    ("logicalOperator", JSONValue.str f.logicalOperator), ("conditions", JSONValue.arr f.conditions)]

/-- The primitive type a property rule may demand. -/
inductive PropType where
  | tString
  | tNumber
  | tBoolean
  | tObject
  | tArray
deriving DecidableEq

/-- Type test of the schema evaluator. -/
def checkType : PropType → JSONValue → Bool
  | PropType.tString, JSONValue.str _ => true
  | PropType.tNumber, JSONValue.num _ => true
  | PropType.tBoolean, JSONValue.bool _ => true
  | PropType.tObject, JSONValue.obj _ => true
  | PropType.tArray, JSONValue.arr _ => true
  | _, _ => false

mutual
/-- Modelled from the spec: a per-property rule of a schema document
(the schema JSON files of the repository are not under src).  A rule
carries required-ness, an optional expected primitive type, an optional
composition rule (the subtree must conform to one of several schemas),
and override messages for required, type and composition failures.
Composition references are modelled already resolved: in the source they
name schemas in the registry the validator was built with, and every
registry the source builds resolves its names; resolution failure would
be a configuration error (a throw), not a validation result. -/
inductive PropRule where
  | mk (name : String) ( required : Bool) (ptype : Option PropType) (sub : List Schema)
      (requiredMessage typeMessage invalidMessage : Option String)

/-- Modelled from the spec: a schema document, either an object schema
made of per-property rules, or a composition demanding that the value
conform to one of several schemas. -/
inductive Schema where
  | object (props : List PropRule)
  | oneOf (alternatives : List Schema) (invalidMessage : Option String)
end

mutual
/-- Modelled from the spec: evaluation of a schema document against a value,
producing the ordered raw failure list the jsen evaluator (an external
dependency not under src) exposes as validate.errors; the list is empty
exactly when the evaluator reports the value valid. -/
def evalSchema (s : Schema) (x : JSONValue) : List ValidationError :=
  match s with
  | Schema.object props =>
    match x with
    | JSONValue.obj fields => evalProps props fields
    | _ => [⟨some "", some "type", none⟩]
  | Schema.oneOf alternatives msg =>
    if anyAccepts alternatives x then [] else [⟨some "", some "oneOf", msg⟩]

/-- Evaluate the property rules of an object schema in order. -/
def evalProps (props : List PropRule) (fields : List (String × JSONValue)) : List ValidationError :=
  match props with
  | [] => []
  | p :: rest => evalProp p fields ++ evalProps rest fields

/-- Evaluate one property rule: a required error when the field is absent,
else a type error when the expected type does not match, and a composition
error when no referenced schema accepts the field value. -/
def evalProp (p : PropRule) (fields : List (String × JSONValue)) : List ValidationError :=
  match p with
  | PropRule.mk name isRequired ptype sub reqMsg typeMsg invMsg =>
    match lookupField fields name with
    | none => if isRequired then [⟨some name, some "required", reqMsg⟩] else []
    | some v =>
      let typeErrs := match ptype with
        | some t => if checkType t v then [] else [⟨some name, some "type", typeMsg⟩]
        | none => []
      match sub with
      | [] => typeErrs
      | _ => if anyAccepts sub v then typeErrs else typeErrs ++ [⟨some name, some "oneOf", invMsg⟩]

/-- Does at least one of the composed schemas accept the value? -/
def anyAccepts (alternatives : List Schema) (x : JSONValue) : Bool :=
  match alternatives with
  | [] => false
  | s :: rest => (evalSchema s x).isEmpty || anyAccepts rest x
end

/-- The validate factory from src/models.ts: the produced function runs the
schema evaluator and returns undefined (`none`) when the value is valid,
else the raw failure list mapped through normalizeError. -/
def validate (schema : Schema) : JSONValue → Option (List ValidationError) :=
  fun x =>
    let errs := evalSchema schema x
    if errs.isEmpty then none else some (errs.map normalizeError)

/-- Shorthand for a property rule with no composition and no messages. -/
def prule (name : String) (isRequired : Bool) (ptype : Option PropType) : PropRule :=
  PropRule.mk name isRequired ptype [] none none none

/-- Modelled from the spec: the settings schema document
(schemas/settings.json is not under src) — two optional booleans. -/
def settingsSchemaM : Schema :=
  Schema.object [prule "filterPaneEnabled" false (some PropType.tBoolean),
    prule "navContentPaneEnabled" false (some PropType.tBoolean)]

/-- Modelled from the spec: the basicFilter schema document — a required
object target, a required string operator, a required array of values. -/
def basicFilterSchemaM : Schema :=
  Schema.object [prule "target" true (some PropType.tObject),
    prule "operator" true (some PropType.tString),
    prule "values" true (some PropType.tArray)]

/-- Modelled from the spec: the advancedFilter schema document — a required
object target, a required string logicalOperator, a required array of
conditions. -/
def advancedFilterSchemaM : Schema :=
  Schema.object [prule "target" true (some PropType.tObject),
    prule "logicalOperator" true (some PropType.tString),
    prule "conditions" true (some PropType.tArray)]

/-- Modelled from the spec: the pageTarget schema document. -/
def pageTargetSchemaM : Schema :=
  Schema.object [prule "type" true (some PropType.tString),
    prule "name" true (some PropType.tString)]

/-- Modelled from the spec: the visualTarget schema document. -/
def visualTargetSchemaM : Schema :=
  Schema.object [prule "type" true (some PropType.tString),
    prule "id" true (some PropType.tString)]

/-- Modelled from the spec: the page schema document. -/
def pageSchemaM : Schema :=
  Schema.object [prule "name" true (some PropType.tString),
    prule "displayName" true (some PropType.tString)]

/-- Modelled from the spec: the load schema document — required string
accessToken and id, optional settings (composed of the settings schema),
optional string pageName, optional filter composed of the basic and
advanced filter schemas. -/
def loadSchemaM : Schema :=
  Schema.object [prule "accessToken" true (some PropType.tString),
    prule "id" true (some PropType.tString),
    PropRule.mk "settings" false (some PropType.tObject) [settingsSchemaM] none none none,
    prule "pageName" false (some PropType.tString),
    PropRule.mk "filter" false (some PropType.tObject)
      [basicFilterSchemaM, advancedFilterSchemaM] none none none]

/-- Modelled from the spec: the target schema document — a composition of
the pageTarget and visualTarget schemas. -/
def targetSchemaM : Schema :=
  Schema.oneOf [pageTargetSchemaM, visualTargetSchemaM] none

/-- Modelled from the spec: the filter schema document — a composition of
the basicFilter and advancedFilter schemas. -/
def filterSchemaM : Schema :=
  Schema.oneOf [basicFilterSchemaM, advancedFilterSchemaM] none

/-- Modelled from the spec: the filtersContainer schema document — an
optional target composed of the target-variant schemas, and a required
array of filters. -/
def filtersContainerSchemaM : Schema :=
  Schema.object [PropRule.mk "target" false (some PropType.tObject)
      [pageTargetSchemaM, visualTargetSchemaM] none none none,
    prule "filters" true (some PropType.tArray)]

/-- validateSettings from src/models.ts, over the modelled schemas. -/
def validateSettings : JSONValue → Option (List ValidationError) :=
  validate settingsSchemaM

/-- validateLoad from src/models.ts, over the modelled schemas. -/
def validateLoad : JSONValue → Option (List ValidationError) :=
  validate loadSchemaM

/-- validateTarget from src/models.ts, over the modelled schemas. -/
def validateTarget : JSONValue → Option (List ValidationError) :=
  validate targetSchemaM

/-- validatePage from src/models.ts, over the modelled schemas. -/
def validatePage : JSONValue → Option (List ValidationError) :=
  validate pageSchemaM

/-- validateFiltersContainer from src/models.ts, over the modelled schemas. -/
def validateFiltersContainer : JSONValue → Option (List ValidationError) :=
  validate filtersContainerSchemaM

/-- validateFilter from src/models.ts, over the modelled schemas. -/
def validateFilter : JSONValue → Option (List ValidationError) :=
  validate filterSchemaM

/-- The guard `typeof v === "string" && v.length > 0` of the AdvancedFilter
constructor, as a predicate on an arbitrary value. -/
def nonemptyStringGuard : JSONValue → Bool
  | JSONValue.str s => !(s.length = 0)
  | _ => false

/-- A well-formed advanced-filter condition record: an object whose value
field is a primitive scalar and whose operator field is a string. -/
def isConditionObject (c : JSONValue) : Bool :=
  (match getField c "value" with
    | some v => isPrimitive v
    | none => false) && isStringValue (getField c "operator")

/-- A concrete object carrying every target field at once. -/
def allTargetFieldsObj : JSONValue :=
  JSONValue.obj [("table", JSONValue.str "t"), ("column", JSONValue.str "c"),
    ("hierarchy", JSONValue.str "h"), ("hierarchyLevel", JSONValue.str "hl"),
    ("measure", JSONValue.str "m")]

/-- C8: isMeasure is true iff table and measure are both defined, isColumn
iff table and column are, isHierarchy iff table, hierarchy and
hierarchyLevel all are; the three predicates are independent — on an object
carrying every field all three hold at once, none excluding another. -/
theorem target_predicates_field_presence : ∀ arg : JSONValue,
    (isMeasure arg = true ↔ (getField arg "table" ≠ none ∧ getField arg "measure" ≠ none)) ∧
    (isColumn arg = true ↔ (getField arg "table" ≠ none ∧ getField arg "column" ≠ none)) ∧
    (isHierarchy arg = true ↔
      (getField arg "table" ≠ none ∧ getField arg "hierarchy" ≠ none ∧
        getField arg "hierarchyLevel" ≠ none)) ∧
    (isMeasure allTargetFieldsObj = true ∧ isColumn allTargetFieldsObj = true ∧
      isHierarchy allTargetFieldsObj = true) := by
  intro arg
  refine ⟨?_, ?_, ?_, rfl, rfl, rfl⟩ <;>
    simp [isMeasure, isColumn, isHierarchy, Bool.and_eq_true, Option.isSome_iff_ne_none,
      and_assoc]

/-- C7: on any object, getFilterType returns Basic exactly when the operator
field is a string and the values field is an array; otherwise Advanced
exactly when the logicalOperator field is a string and the conditions field
is an array; otherwise Unknown — so an object satisfying both checks is
classified Basic.  A dollar-schema binding prepended to the object never
changes the classification: the field is not consulted. -/
theorem getFilterType_classification : ∀ fields : List (String × JSONValue),
    (getFilterType (JSONValue.obj fields) = FilterType.Basic ↔
      (isStringValue (lookupField fields "operator") = true ∧
        isArrayValue (lookupField fields "values") = true)) ∧
    (getFilterType (JSONValue.obj fields) = FilterType.Advanced ↔
      (¬(isStringValue (lookupField fields "operator") = true ∧
          isArrayValue (lookupField fields "values") = true) ∧
        isStringValue (lookupField fields "logicalOperator") = true ∧
        isArrayValue (lookupField fields "conditions") = true)) ∧
    (getFilterType (JSONValue.obj fields) = FilterType.Unknown ↔
      (¬(isStringValue (lookupField fields "operator") = true ∧
          isArrayValue (lookupField fields "values") = true) ∧
        ¬(isStringValue (lookupField fields "logicalOperator") = true ∧
          isArrayValue (lookupField fields "conditions") = true))) ∧
    (∀ v : JSONValue, getFilterType (JSONValue.obj (("$schema", v) :: fields)) =
      getFilterType (JSONValue.obj fields)) := by
  intro fields
  refine ⟨?_, ?_, ?_, ?_⟩
  · cases hop : isStringValue (lookupField fields "operator") <;>
      cases hva : isArrayValue (lookupField fields "values") <;>
        cases hlo : isStringValue (lookupField fields "logicalOperator") <;>
          cases hco : isArrayValue (lookupField fields "conditions") <;>
            simp [getFilterType, getField, hop, hva, hlo, hco]
  · cases hop : isStringValue (lookupField fields "operator") <;>
      cases hva : isArrayValue (lookupField fields "values") <;>
        cases hlo : isStringValue (lookupField fields "logicalOperator") <;>
          cases hco : isArrayValue (lookupField fields "conditions") <;>
            simp [getFilterType, getField, hop, hva, hlo, hco]
  · cases hop : isStringValue (lookupField fields "operator") <;>
      cases hva : isArrayValue (lookupField fields "values") <;>
        cases hlo : isStringValue (lookupField fields "logicalOperator") <;>
          cases hco : isArrayValue (lookupField fields "conditions") <;>
            simp [getFilterType, getField, hop, hva, hlo, hco]
  · intro v
    simp [getFilterType, getField, lookupField]

/-- C2 counterexample: constructing a BasicFilter with a single empty-array
trailing argument does not fail — it succeeds and yields a filter holding an
empty values list, against the claim that an empty resolved payload fails
construction. -/
theorem basicFilter_empty_array_argument_constructs :
    BasicFilter.make (JSONValue.obj [("table", JSONValue.str "a"), ("column", JSONValue.str "b")])
        "In" [JSONValue.arr []] =
      Except.ok ⟨JSONValue.obj [("table", JSONValue.str "a"), ("column", JSONValue.str "b")],
        "In", [], basicSchemaUrl⟩ := rfl

/-- C2 amended: the BasicFilter constructor fails with a construction error
exactly when the raw trailing argument list is empty; the guard runs before
the array-versus-variadic detection, so a single array argument of any
length passes it. -/
theorem basicFilter_fails_iff_no_raw_arguments :
    ∀ (t : JSONValue) (op : String) (args : List JSONValue),
      (∃ e, BasicFilter.make t op args = Except.error e) ↔ args = [] := by
  intro t op args
  cases args with
  | nil => simp [BasicFilter.make]
  | cons a rest => cases a <;> simp [BasicFilter.make]

/-- C3 counterexample: constructing an AdvancedFilter with a single array
argument containing three conditions does not fail — it succeeds and yields
a filter holding three conditions, against the claim that a resolved payload
of more than two conditions fails construction. -/
theorem advancedFilter_three_conditions_in_array_constructs :
    AdvancedFilter.make (JSONValue.obj [("table", JSONValue.str "a"), ("column", JSONValue.str "b")])
        (JSONValue.str "And")
        [JSONValue.arr [JSONValue.obj [("value", JSONValue.num 1), ("operator", JSONValue.str "Is")],
          JSONValue.obj [("value", JSONValue.num 2), ("operator", JSONValue.str "Is")],
          JSONValue.obj [("value", JSONValue.num 3), ("operator", JSONValue.str "Is")]]] =
      Except.ok ⟨JSONValue.obj [("table", JSONValue.str "a"), ("column", JSONValue.str "b")],
        "And",
        [JSONValue.obj [("value", JSONValue.num 1), ("operator", JSONValue.str "Is")],
          JSONValue.obj [("value", JSONValue.num 2), ("operator", JSONValue.str "Is")],
          JSONValue.obj [("value", JSONValue.num 3), ("operator", JSONValue.str "Is")]],
        advancedSchemaUrl⟩ := rfl

/-- C3 amended: the AdvancedFilter constructor fails with a construction
error exactly when the logical operator is not a non-empty string, or the
raw trailing argument list is empty, or the raw trailing argument list has
more than two entries; the guards run before the array-versus-variadic
detection, so a single array argument passes them whatever its length. -/
theorem advancedFilter_fails_iff_raw_guard :
    ∀ (t lop : JSONValue) (args : List JSONValue),
      (∃ e, AdvancedFilter.make t lop args = Except.error e) ↔
        (nonemptyStringGuard lop = false ∨ args = [] ∨ 2 < args.length) := by
  intro t lop args
  cases lop with
  | str s =>
    by_cases hs : s.length = 0
    · simp [AdvancedFilter.make, nonemptyStringGuard, hs]
    · cases args with
      | nil => simp [AdvancedFilter.make, nonemptyStringGuard, hs]
      | cons a rest =>
        by_cases h2 : rest.length + 1 > 2
        · simp [AdvancedFilter.make, nonemptyStringGuard, hs, h2]
        · cases a <;> simp [AdvancedFilter.make, nonemptyStringGuard, hs, h2]
  | null => simp [AdvancedFilter.make, nonemptyStringGuard]
  | bool b => simp [AdvancedFilter.make, nonemptyStringGuard]
  | num n => simp [AdvancedFilter.make, nonemptyStringGuard]
  | arr elems => simp [AdvancedFilter.make, nonemptyStringGuard]
  | obj fs => simp [AdvancedFilter.make, nonemptyStringGuard]

/-- C9: in both constructors the emptiness and length guards run on the raw
positional argument list, before array-versus-variadic detection: a single
array trailing argument always passes them, whatever the array's length, so
a BasicFilter can hold an empty values list and an AdvancedFilter can hold
zero or more than two conditions. -/
theorem filter_guards_precede_array_detection :
    ∀ (t : JSONValue) (op lop : String) (a : List JSONValue), lop ≠ "" →
      (∃ f, BasicFilter.make t op [JSONValue.arr a] = Except.ok f ∧ f.values = a) ∧
      (∃ g, AdvancedFilter.make t (JSONValue.str lop) [JSONValue.arr a] = Except.ok g ∧
        g.conditions = a) := by
  intro t op lop a hlop
  have hs : ¬(lop.length = 0) := by
    intro h0
    apply hlop
    cases lop with
    | mk data =>
      have hl : data.length = 0 := h0
      have hd : data = [] := List.length_eq_zero.mp hl
      subst hd
      rfl
  refine ⟨⟨⟨t, op, a, basicSchemaUrl⟩, rfl, rfl⟩,
    ⟨⟨t, lop, a, advancedSchemaUrl⟩, ?_, rfl⟩⟩
  simp [AdvancedFilter.make, hs]

/-- C9 witness: a concrete instance — constructing each filter with a single
array of three conditions (more than two), or a single empty array. -/
theorem filter_guards_precede_array_detection_witness :
    (∃ f, BasicFilter.make JSONValue.null "In" [JSONValue.arr []] = Except.ok f ∧
      f.values = []) ∧
    (∃ g, AdvancedFilter.make JSONValue.null (JSONValue.str "And")
        [JSONValue.arr [JSONValue.num 1, JSONValue.num 2, JSONValue.num 3]] = Except.ok g ∧
      g.conditions = [JSONValue.num 1, JSONValue.num 2, JSONValue.num 3]) :=
  ⟨(filter_guards_precede_array_detection JSONValue.null "In" "And" [] (by decide)).1,
    (filter_guards_precede_array_detection JSONValue.null "In" "And"
      [JSONValue.num 1, JSONValue.num 2, JSONValue.num 3] (by decide)).2⟩

/-- C4 counterexample: on a record supplying the override message "" (an
empty string is a present override), the normalizer does not keep it
verbatim — it synthesizes the fallback message instead. -/
theorem normalizeError_empty_override_not_verbatim :
    (normalizeError ⟨some "p", some "k", some ""⟩).message =
        some "p is invalid. Not meeting k constraint" ∧
      (normalizeError ⟨some "p", some "k", some ""⟩).message ≠ some "" := by
  exact ⟨rfl, by decide⟩

/-- C4 amended: on a raw record carrying a path and a rule keyword, the
normalizer returns a record whose path and keyword fields are deleted and
whose message is the supplied override verbatim when a non-empty one is
present, and otherwise (absent or empty override) the synthesized string
built from the path and the keyword. -/
theorem normalizeError_output : ∀ (p k : String) (m : Option String),
    normalizeError ⟨some p, some k, m⟩ =
      ⟨none, none, some (match m with
        | some s => if s = "" then p ++ " is invalid. Not meeting " ++ k ++ " constraint" else s
        | none => p ++ " is invalid. Not meeting " ++ k ++ " constraint")⟩ := by
  intro p k m
  cases m with
  | none => simp [normalizeError, falsyMessage, fallbackMessage, templateString]
  | some s =>
    by_cases hs : s = "" <;>
      simp [normalizeError, falsyMessage, fallbackMessage, templateString, hs]

/-- C10: the normalizer treats an empty-string override message exactly as
an absent one, and it operates in place: it returns the very reference it
was given, the record behind that reference now has its path and keyword
fields deleted, and no other record of the heap is touched — no fresh
record is allocated. -/
theorem normalizeError_in_place : ∀ (h : ErrHeap) (r s : Nat) (e : ValidationError),
    (normalizeErrorAt h r).2 = r ∧
    (normalizeErrorAt h r).1 r = normalizeError (h r) ∧
    ((normalizeErrorAt h r).1 r).path = none ∧
    ((normalizeErrorAt h r).1 r).keyword = none ∧
    (s ≠ r → (normalizeErrorAt h r).1 s = h s) ∧
    normalizeError { e with message := some "" } = normalizeError { e with message := none } := by
  intro h r s e
  refine ⟨rfl, ?_, ?_, ?_, ?_, ?_⟩
  · simp [normalizeErrorAt, updateHeap]
  · simp [normalizeErrorAt, updateHeap, normalizeError]
  · simp [normalizeErrorAt, updateHeap, normalizeError]
  · intro hs
    simp [normalizeErrorAt, updateHeap, hs]
  · simp [normalizeError, falsyMessage, fallbackMessage, templateString]

/-- Any produced validator returns undefined or a non-empty error list: the
wrapper maps the raw failure list through the normalizer only when the
evaluator reported at least one failure. -/
theorem validate_some_imp_nonempty (sch : Schema) (x : JSONValue)
    (l : List ValidationError) (h : validate sch x = some l) : l ≠ [] := by
  intro hl
  subst hl
  by_cases he : (evalSchema sch x).isEmpty
  · simp [validate, he] at h
  · simp [validate, he] at h
    rw [h] at he
    simp at he

/-- C1: each of the six produced validators returns either undefined (the
value is valid) or a non-empty list of errors; an empty-but-defined list is
never returned. -/
theorem validators_undefined_or_nonempty :
    ∀ (x : JSONValue) (l : List ValidationError),
      (validateLoad x = some l → l ≠ []) ∧
      (validateSettings x = some l → l ≠ []) ∧
      (validateTarget x = some l → l ≠ []) ∧
      (validatePage x = some l → l ≠ []) ∧
      (validateFilter x = some l → l ≠ []) ∧
      (validateFiltersContainer x = some l → l ≠ []) := by
  intro x l
  exact ⟨validate_some_imp_nonempty loadSchemaM x l,
    validate_some_imp_nonempty settingsSchemaM x l,
    validate_some_imp_nonempty targetSchemaM x l,
    validate_some_imp_nonempty pageSchemaM x l,
    validate_some_imp_nonempty filterSchemaM x l,
    validate_some_imp_nonempty filtersContainerSchemaM x l⟩

/-- A string that is not the empty literal has non-zero length. -/
theorem length_ne_zero_of_ne_empty {s : String} (h : s ≠ "") : ¬(s.length = 0) := by
  intro h0
  apply h
  cases s with
  | mk data =>
    have hl : data.length = 0 := h0
    have hd : data = [] := List.length_eq_zero.mp hl
    subst hd
    rfl

/-- C6: for either filter variant, passing the payload as one array argument
and passing its elements as separate positional arguments construct filters
with identical toJSON output. -/
theorem filter_array_variadic_toJSON_equal :
    (∀ (t : JSONValue) (op : String) (ps : List JSONValue), ps ≠ [] →
      (∀ v ∈ ps, isPrimitive v = true) →
      ∃ f g, BasicFilter.make t op [JSONValue.arr ps] = Except.ok f ∧
        BasicFilter.make t op ps = Except.ok g ∧ f.toJSON = g.toJSON) ∧
    (∀ (t : JSONValue) (lop : String) (cs : List JSONValue), lop ≠ "" → cs ≠ [] →
      cs.length ≤ 2 → (∀ c ∈ cs, isObjectValue c = true) →
      ∃ f g, AdvancedFilter.make t (JSONValue.str lop) [JSONValue.arr cs] = Except.ok f ∧
        AdvancedFilter.make t (JSONValue.str lop) cs = Except.ok g ∧ f.toJSON = g.toJSON) := by
  constructor
  · intro t op ps hne hprim
    refine ⟨⟨t, op, ps, basicSchemaUrl⟩, ⟨t, op, ps, basicSchemaUrl⟩, rfl, ?_, rfl⟩
    cases ps with
    | nil => exact absurd rfl hne
    | cons a rest =>
      have ha : isPrimitive a = true := hprim a (by simp)
      cases a with
      | arr es => simp [isPrimitive] at ha
      | null => simp [BasicFilter.make]
      | bool b => simp [BasicFilter.make]
      | num n => simp [BasicFilter.make]
      | str s => simp [BasicFilter.make]
      | obj fs => simp [BasicFilter.make]
  · intro t lop cs hlop hne hlen hobj
    have hs : ¬(lop.length = 0) := length_ne_zero_of_ne_empty hlop
    refine ⟨⟨t, lop, cs, advancedSchemaUrl⟩, ⟨t, lop, cs, advancedSchemaUrl⟩, ?_, ?_, rfl⟩
    · simp [AdvancedFilter.make, hs]
    · cases cs with
      | nil => exact absurd rfl hne
      | cons c rest =>
        have hc : isObjectValue c = true := hobj c (by simp)
        have h2 : ¬((c :: rest).length > 2) := by
          simp only [List.length_cons] at hlen ⊢
          omega
        cases c with
        | obj fs =>
          simp [AdvancedFilter.make, hs, h2]
          simp only [List.length_cons] at hlen
          omega
        | null => simp [isObjectValue] at hc
        | bool b => simp [isObjectValue] at hc
        | num n => simp [isObjectValue] at hc
        | str s => simp [isObjectValue] at hc
        | arr es => simp [isObjectValue] at hc

/-- C6 witness: the two construction forms of one concrete Basic filter,
with identical serialization. -/
theorem filter_array_variadic_toJSON_equal_witness :
    ∃ f g, BasicFilter.make JSONValue.null "In"
        [JSONValue.arr [JSONValue.num 1, JSONValue.num 2]] = Except.ok f ∧
      BasicFilter.make JSONValue.null "In" [JSONValue.num 1, JSONValue.num 2] = Except.ok g ∧
      f.toJSON = g.toJSON :=
  filter_array_variadic_toJSON_equal.1 JSONValue.null "In"
    [JSONValue.num 1, JSONValue.num 2] (by simp) (by simp [isPrimitive])

/-- A successfully constructed BasicFilter carries the target it was built
with, the operator, and the static basic schemaUrl. -/
theorem basicFilter_make_ok_fields (t : JSONValue) (op : String) (args : List JSONValue)
    (f : BasicFilter) (h : BasicFilter.make t op args = Except.ok f) :
    f.target = t ∧ f.operator = op ∧ f.schemaUrl = basicSchemaUrl := by
  unfold BasicFilter.make at h
  split at h
  · exact absurd h (by simp)
  · split at h
    · cases h
      exact ⟨rfl, rfl, rfl⟩
    · cases h
      exact ⟨rfl, rfl, rfl⟩

/-- A successfully constructed AdvancedFilter carries the target it was
built with and the static advanced schemaUrl. -/
theorem advancedFilter_make_ok_fields (t lop : JSONValue) (args : List JSONValue)
    (g : AdvancedFilter) (h : AdvancedFilter.make t lop args = Except.ok g) :
    g.target = t ∧ g.schemaUrl = advancedSchemaUrl := by
  unfold AdvancedFilter.make at h
  split at h
  · split at h
    · exact absurd h (by simp)
    · split at h
      · exact absurd h (by simp)
      · split at h
        · exact absurd h (by simp)
        · split at h
          · cases h
            exact ⟨rfl, rfl⟩
          · cases h
            exact ⟨rfl, rfl⟩
  · exact absurd h (by simp)

/-- C5: a successfully constructed BasicFilter with an object target, an
operator and non-empty primitive values, and a successfully constructed
AdvancedFilter with an object target and one or two well-formed conditions,
both serialize to JSON that validateFilter accepts (returns undefined). -/
theorem validateFilter_roundtrip :
    (∀ (t : JSONValue) (op : String) (args : List JSONValue) (f : BasicFilter),
      BasicFilter.make t op args = Except.ok f → isObjectValue t = true →
      f.values ≠ [] → (∀ v ∈ f.values, isPrimitive v = true) →
      validateFilter f.toJSON = none) ∧
    (∀ (t lop : JSONValue) (args : List JSONValue) (g : AdvancedFilter),
      AdvancedFilter.make t lop args = Except.ok g → isObjectValue t = true →
      (g.conditions.length = 1 ∨ g.conditions.length = 2) →
      (∀ c ∈ g.conditions, isConditionObject c = true) →
      validateFilter g.toJSON = none) := by
  constructor
  · intro t op args f hmk hobj hne hprim
    have ht : f.target = t := (basicFilter_make_ok_fields t op args f hmk).1
    obtain ⟨ft, fop, fvs, fsu⟩ := f
    simp only at ht
    subst ht
    cases ft with
    | obj tf => rfl
    | null => simp [isObjectValue] at hobj
    | bool b => simp [isObjectValue] at hobj
    | num n => simp [isObjectValue] at hobj
    | str s => simp [isObjectValue] at hobj
    | arr es => simp [isObjectValue] at hobj
  · intro t lop args g hmk hobj hlen hcond
    have ht : g.target = t := (advancedFilter_make_ok_fields t lop args g hmk).1
    obtain ⟨gt, glop, gcs, gsu⟩ := g
    simp only at ht
    subst ht
    cases gt with
    | obj tf => rfl
    | null => simp [isObjectValue] at hobj
    | bool b => simp [isObjectValue] at hobj
    | num n => simp [isObjectValue] at hobj
    | str s => simp [isObjectValue] at hobj
    | arr es => simp [isObjectValue] at hobj

/-- C5 witness: concrete round trips for one Basic and one Advanced filter. -/
theorem validateFilter_roundtrip_witness :
    validateFilter (BasicFilter.toJSON ⟨JSONValue.obj [("table", JSONValue.str "a"),
        ("column", JSONValue.str "b")], "In", [JSONValue.str "x"], basicSchemaUrl⟩) = none ∧
    validateFilter (AdvancedFilter.toJSON ⟨JSONValue.obj [("table", JSONValue.str "a"),
        ("column", JSONValue.str "b")], "And",
        [JSONValue.obj [("value", JSONValue.num 1), ("operator", JSONValue.str "Is")]],
        advancedSchemaUrl⟩) = none :=
  ⟨validateFilter_roundtrip.1 (JSONValue.obj [("table", JSONValue.str "a"),
        ("column", JSONValue.str "b")]) "In" [JSONValue.str "x"]
      ⟨JSONValue.obj [("table", JSONValue.str "a"), ("column", JSONValue.str "b")],
        "In", [JSONValue.str "x"], basicSchemaUrl⟩ rfl rfl (by simp)
      (by simp [isPrimitive]),
    validateFilter_roundtrip.2 (JSONValue.obj [("table", JSONValue.str "a"),
        ("column", JSONValue.str "b")]) (JSONValue.str "And")
      [JSONValue.obj [("value", JSONValue.num 1), ("operator", JSONValue.str "Is")]]
      ⟨JSONValue.obj [("table", JSONValue.str "a"), ("column", JSONValue.str "b")],
        "And", [JSONValue.obj [("value", JSONValue.num 1), ("operator", JSONValue.str "Is")]],
        advancedSchemaUrl⟩ rfl rfl (Or.inl rfl)
      (by simp [isConditionObject, getField, lookupField, isPrimitive, isStringValue])⟩
